import Mathlib

/-!
Shallow embedding of `alexandria/core/filters.py` (the query-filtering
module of the alexandria document-management API) and proofs about it.

The module defines three filter classes:
  * `JSONValueFilter.filter`  — JSON-field lookups,
  * `ActiveGroupFilter.filter` — access-group membership check,
  * `TagsFilter.filter`        — tag / synonym-group resolution.

Querysets are embedded as the model they query plus the ordered list of
restriction operations (`annotate` / `filter` calls) applied to them; the
ORM's relational semantics of those operations is outside this module
(the spec explicitly places it out of scope), so an operation is recorded
with exactly the arguments the Python code passes to the ORM call.
Python exceptions are embedded by an explicit error type in `Except`.
-/

namespace Alexandria

/-- JSON values as produced by `json.loads`: null, booleans, numbers,
strings, arrays and objects (objects as association lists, as decoded
dictionaries have one binding per key). -/
inductive JSON where
  | null
  | bool (b : Bool)
  | num (n : Int)
  | str (s : String)
  | arr (elems : List JSON)
  | obj (fields : List (String × JSON))

/-- Python exceptions observable from the filter methods:
`rest_framework.exceptions.ValidationError` (with its message), and the
non-validation exceptions the code can let escape: `TypeError` (iteration
or membership test on an unsupported value), `AttributeError` (attribute
access such as `.get` on a value without it, or `_meta` on `None`),
`Tag.DoesNotExist` (from `models.Tag.objects.get`), and `FieldError`
(from `_meta.get_field` on an unknown field name). -/
inductive PyError where
  | validationError (msg : String)
  | typeError
  | attributeError
  | doesNotExist
  | fieldError

/-- True exactly for the framework's standard validation-error type. -/
def isValidationError : PyError → Bool
  | .validationError _ => true
  | _ => false

/-- Model metadata as the filter code reads it: `_meta.get_field(name)`
yields a field, of which the code uses `related_model` (an optional
related model) and `get_lookups()` (whose keys we keep, in registration
order, as the list of registered lookup names). -/
inductive ModelMeta where
  | mk (fields : List (String × Option ModelMeta × List String))

/-- The association list behind `_meta`. -/
def ModelMeta.fields : ModelMeta → List (String × Option ModelMeta × List String)
  | .mk fs => fs

/-- The embedding of `model._meta.get_field(name)`: `none` when the model
has no such field (Django raises `FieldError` there; the caller maps it). -/
def ModelMeta.get_field (m : ModelMeta) (name : String) :
    Option (Option ModelMeta × List String) :=
  (m.fields.find? (fun p => p.1 == name)).map Prod.snd

/-- One restriction recorded on a queryset, with exactly the arguments the
Python code hands to the ORM call that produced it. -/
inductive QsOp where
  /-- `qs.annotate(field_val=KeyTextTransform(key, field_name))`. -/
  | annotateKeyText (alias_ : String) (key : JSON) (fieldName : String)
  /-- `qs.filter(**\x7bf"field_val__\x7blookup\x7d": value\x7d)` with a string value. -/
  | filterFieldVal (lookup : String) (value : JSON)
  /-- `qs.filter(**\x7bf"\x7bfield_name\x7d__\x7bkey\x7d__\x7blookup\x7d": value\x7d)`. -/
  | filterJsonPath (fieldName : String) (key : JSON) (lookup : String) (value : JSON)
  /-- `qs.filter(tags__in=synonyms)`, `synonyms` given by its tag pks. -/
  | filterTagsIn (pks : List String)
  /-- `qs.filter(tags__pk=key)`. -/
  | filterTagsPk (pk : String)

/-- A queryset: the model it ranges over and the ordered restrictions
applied so far. -/
structure QuerySet where
  model : ModelMeta
  ops : List QsOp

/-- One ORM call chained onto a queryset. -/
def QuerySet.applyOp (qs : QuerySet) (op : QsOp) : QuerySet :=
  { qs with ops := qs.ops ++ [op] }

/-- Python `s.split("__")` on character lists (structural, so that it
reduces definitionally on concrete strings). -/
def splitDunder : List Char → List Char → List String
  | [], acc => [String.mk acc.reverse]
  | '_' :: '_' :: rest, acc => String.mk acc.reverse :: splitDunder rest []
  | c :: rest, acc => splitDunder rest (c :: acc)

/-- `field_name.split("__")`. -/
def splitFieldName (s : String) : List String :=
  splitDunder s.toList []

/-- Whether `pat` is a prefix of `l` (character lists). -/
def charPrefix : List Char → List Char → Bool
  | _, [] => true
  | [], _ :: _ => false
  | c :: cs, d :: ds => c == d && charPrefix cs ds

/-- Whether `pat` occurs as a contiguous run in `l`. -/
def charContains : List Char → List Char → Bool
  | [], pat => pat.isEmpty
  | c :: rest, pat => charPrefix (c :: rest) pat || charContains rest pat

/-- Python `needle in haystack` on strings (substring test). -/
def pyInStr (haystack needle : String) : Bool :=
  charContains haystack.toList needle.toList

/-- Python `value in EMPTY_VALUES` for a decoded JSON value:
`EMPTY_VALUES = ([], (), \x7b\x7d, "", None)` and `in` compares with `==`,
so a decoded value is empty exactly when it is `[]`, `\x7b\x7d`, `""` or
`null` (a tuple never results from `json.loads`). -/
def pyEmptyJSON : JSON → Bool
  | .arr [] => true
  | .obj [] => true
  | .str "" => true
  | .null => true
  | _ => false

/-- Python `k in v` for a decoded value `v`: key membership on an object,
substring test on a string, `==`-membership on an array, and `TypeError`
on values that support no membership test (numbers, booleans, null). -/
def pyContains (v : JSON) (k : String) : Except PyError Bool :=
  match v with
  | .obj fields => .ok (fields.any (fun p => p.1 == k))
  | .str s => .ok (pyInStr s k)
  | .arr xs => .ok (xs.any (fun x => match x with | .str s => s == k | _ => false))
  | _ => .error .typeError

/-- Python `v.get(k, dflt)`: only dictionaries have `.get`; every other
decoded value raises `AttributeError` there. -/
def pyGet (v : JSON) (k : String) (dflt : JSON) : Except PyError JSON :=
  match v with
  | .obj fields => .ok (((fields.find? (fun p => p.1 == k)).map Prod.snd).getD dflt)
  | _ => .error .attributeError

/-- Python `v[k]` on a dictionary known to contain `k` (the code indexes
`expr["key"]` / `expr["value"]` only after checking membership, so the
default is never taken there). -/
def pyGetItem (v : JSON) (k : String) : Option JSON :=
  match v with
  | .obj fields => (fields.find? (fun p => p.1 == k)).map Prod.snd
  | _ => none

/-- Whether a decoded value is hashable: Python `x in some_dict` hashes
`x` first and raises `TypeError` on lists and dictionaries. -/
def pyHashable : JSON → Bool
  | .arr _ => false
  | .obj _ => false
  | _ => true

/-- Rendering of a scalar inside an f-string (`f"\x7bx\x7d"`). Containers
are rendered only after the hashability check has already raised, so
their rendering is never observed in a message; a placeholder stands in
for Python's container repr. -/
def pyStr : JSON → String
  | .null => "None"
  | .bool true => "True"
  | .bool false => "False"
  | .num n => toString n
  | .str s => s
  | .arr _ => "[...]"
  | .obj _ => "..."

/-- Python `lookup_expr not in valid_lookups` negated: the dict's keys are
the registered lookup names (strings), so only a string equal to one of
them is a member. -/
def lookupAllowed (le : JSON) (valid : List String) : Bool :=
  match le with
  | .str s => valid.contains s
  | _ => false

/-- Message of the malformed-JSON validation error. -/
def jsonDecodeErrMsg : String :=
  "JSONValueFilter value needs to be json encoded."

/-- Message of the missing key/value validation error. -/
def keyValueErrMsg : String :=
  "JSONValueFilter value needs to have a \"key\" and \"value\" and an optional \"lookup\" key."

/-- Message of the disallowed-lookup validation error: it names the field
and lists the valid expressions. -/
def lookupErrMsg (le : JSON) (field_name : String) (valid : List String) : String :=
  "Lookup expression \"" ++ pyStr le ++ "\" not allowed for field \"" ++ field_name ++
    "\". Valid expressions: " ++ String.intercalate ", " valid

/-- Message of the active-group validation error. -/
def activeGroupErrMsg (v : String) : String :=
  "Active group '" ++ v ++ "' is not part of user's assigned groups"

/-- The filter instance state `JSONValueFilter` reads: its configured
`field_name` and default `lookup_expr` (django-filter's default is
`"exact"`). -/
structure JSONValueFilter where
  field_name : String
  lookup_expr : String := "exact"

/-- Traversal loop of `_valid_lookups`:
`model = model._meta.get_field(field).related_model` per segment. A
missing field raises `FieldError`; a `None` related model makes the next
`_meta` access raise `AttributeError` (there is always a next access). -/
def traverseRelated : ModelMeta → List String → Except PyError ModelMeta
  | m, [] => .ok m
  | m, f :: rest =>
    match m.get_field f with
    | none => .error .fieldError
    | some (related, _) =>
      match related with
      | some rel => traverseRelated rel rest
      | none => .error .attributeError

/-- `JSONValueFilter._valid_lookups`: split `field_name` on `"__"`, walk
the related models along all but the last segment, and return the lookups
registered on the final field. -/
def JSONValueFilter._valid_lookups (f : JSONValueFilter) (qs : QuerySet) :
    Except PyError (List String) :=
  let parts := splitFieldName f.field_name
  let traversals := parts.dropLast
  let actual_field := parts.getLastD ""
  match traverseRelated qs.model traversals with
  | .error e => .error e
  | .ok m =>
    match m.get_field actual_field with
    | none => .error .fieldError
    | some (_, lookups) => .ok lookups

/-- The raw HTTP value handed to `JSONValueFilter.filter`, abstracted by
its `json.loads` outcome: empty (`""` or `None`, the members of
`EMPTY_VALUES` a raw string can equal), non-empty but not valid JSON
(`JSONDecodeError`), or non-empty and decoding to a JSON value. -/
inductive RawValue where
  | empty
  | malformed
  | jsonVal (v : JSON)

/-- The `isinstance(value, dict)` wrap plus the `for expr in value`
iteration: a dict becomes the one-element list around it, a list iterates
its elements, a string iterates its one-character substrings, and any
other decoded value raises `TypeError` at the `for`. -/
def toEntryList (v : JSON) : Except PyError (List JSON) :=
  match v with
  | .obj fields => .ok [.obj fields]
  | .arr xs => .ok xs
  | .str s => .ok (s.toList.map (fun c => JSON.str (String.mk [c])))
  | _ => .error .typeError

/-- One iteration of the `for expr in value` loop of
`JSONValueFilter.filter`: skip empty entries, demand `"key"` and
`"value"`, validate the lookup expression, then chain the annotate/filter
calls for a string value or the single filter call otherwise. -/
def applyEntry (f : JSONValueFilter) (valid : List String) (qs : QuerySet) (expr : JSON) :
    Except PyError QuerySet :=
  if pyEmptyJSON expr then .ok qs
  else
    match pyContains expr "key", pyContains expr "value" with
    | .error e, _ => .error e
    | .ok _, .error e => .error e
    | .ok hk, .ok hv =>
      if !(hk && hv) then .error (.validationError keyValueErrMsg)
      else
        match pyGet expr "lookup" (.str f.lookup_expr) with
        | .error e => .error e
        | .ok le =>
          if !pyHashable le then .error .typeError
          else if !lookupAllowed le valid then
            .error (.validationError (lookupErrMsg le f.field_name valid))
          else
            match (pyGetItem expr "value").getD .null with
            | .str s =>
              .ok ((qs.applyOp
                (.annotateKeyText "field_val" ((pyGetItem expr "key").getD .null) f.field_name)).applyOp
                (.filterFieldVal (pyStr le) (.str s)))
            | v =>
              .ok (qs.applyOp
                (.filterJsonPath f.field_name ((pyGetItem expr "key").getD .null) (pyStr le) v))

/-- The whole entry loop, threading the queryset left to right and
propagating the first raised exception. -/
def applyEntries (f : JSONValueFilter) (valid : List String) :
    List JSON → QuerySet → Except PyError QuerySet
  | [], qs => .ok qs
  | e :: rest, qs =>
    match applyEntry f valid qs e with
    | .error err => .error err
    | .ok qs' => applyEntries f valid rest qs'

/-- `JSONValueFilter.filter`: return the queryset on an empty value,
compute the valid lookups, decode the value (raising the validation
error on a decode failure), and run the entry loop. -/
def JSONValueFilter.filter (f : JSONValueFilter) (qs : QuerySet) (value : RawValue) :
    Except PyError QuerySet :=
  match value with
  | .empty => .ok qs
  | .malformed =>
    match f._valid_lookups qs with
    | .error e => .error e
    | .ok _ => .error (.validationError jsonDecodeErrMsg)
  | .jsonVal v =>
    match f._valid_lookups qs with
    | .error e => .error e
    | .ok valid =>
      match toEntryList v with
      | .error e => .error e
      | .ok entries => applyEntries f valid entries qs

/-- The filter instance state `ActiveGroupFilter` reads. Modelled from
the spec: `self.parent.request.user.groups`, the requesting user's
assigned groups (the user model is outside this module), embedded as the
list of the user's group names. -/
structure ActiveGroupFilter where
  groups : List String

/-- `ActiveGroupFilter.filter`: empty values (`None` or `""`, the members
of `EMPTY_VALUES` a cleaned char value can equal) pass through; a value
outside the user's groups raises the validation error; otherwise the
queryset is returned unchanged. -/
def ActiveGroupFilter.filter (f : ActiveGroupFilter) (qs : QuerySet) (value : Option String) :
    Except PyError QuerySet :=
  match value with
  | none => .ok qs
  | some v =>
    if v = "" then .ok qs
    else if f.groups.contains v then .ok qs
    else .error (.validationError (activeGroupErrMsg v))

/-- A stored tag. Modelled from the spec: the `Tag` model (defined
outside this module) with its primary key and its optional tag-synonym
group; the group is embedded by the pks of the tags in it
(`tag_obj.tag_synonym_group.tags.all()`). -/
structure Tag where
  pk : String
  tag_synonym_group : Option (List String)

/-- `models.Tag.objects.get(pk=key)` over the stored tag table:
`Tag.DoesNotExist` when no tag has the key (pks are unique). -/
def tagGet (db : List Tag) (key : String) : Except PyError Tag :=
  match db.find? (fun t => t.pk == key) with
  | some t => .ok t
  | none => .error .doesNotExist

/-- One iteration of the `for key in value` loop of `TagsFilter.filter`:
fetch the tag; a truthy synonym group with a non-empty tag set yields a
`tags__in` restriction, a truthy group with an empty tag set yields no
restriction at all (the inner `if synonyms:` has no else), and no group
yields the `tags__pk` restriction. -/
def tagsStep (db : List Tag) (qs : QuerySet) (key : String) : Except PyError QuerySet :=
  match tagGet db key with
  | .error e => .error e
  | .ok tag_obj =>
    match tag_obj.tag_synonym_group with
    | some synonyms =>
      if synonyms.isEmpty then .ok qs
      else .ok (qs.applyOp (.filterTagsIn synonyms))
    | none => .ok (qs.applyOp (.filterTagsPk key))

/-- The whole tag loop. -/
def tagsLoop (db : List Tag) : List String → QuerySet → Except PyError QuerySet
  | [], qs => .ok qs
  | k :: rest, qs =>
    match tagsStep db qs k with
    | .error e => .error e
    | .ok qs' => tagsLoop db rest qs'

/-- `TagsFilter.filter`: an empty list (the only member of `EMPTY_VALUES`
a cleaned list value can equal) passes through, otherwise the loop runs
over every key. -/
def TagsFilter.filter (db : List Tag) (qs : QuerySet) (value : List String) :
    Except PyError QuerySet :=
  if value.isEmpty then .ok qs
  else tagsLoop db value qs

/-- One key's restriction as claim C2's words describe it (for comparison
with `tagsStep`): when the key's tag has a synonym group with a non-empty
tag set, require some tag of the group; otherwise require the tag with
exactly that key. -/
def tagsStepClaim (db : List Tag) (qs : QuerySet) (key : String) : Except PyError QuerySet :=
  match tagGet db key with
  | .error e => .error e
  | .ok tag_obj =>
    match tag_obj.tag_synonym_group with
    | some synonyms =>
      if synonyms.isEmpty then .ok (qs.applyOp (.filterTagsPk key))
      else .ok (qs.applyOp (.filterTagsIn synonyms))
    | none => .ok (qs.applyOp (.filterTagsPk key))

/-- The tag filter as claim C2's words describe it. -/
def tagsFilterClaim (db : List Tag) (qs : QuerySet) (value : List String) :
    Except PyError QuerySet :=
  if value.isEmpty then .ok qs
  else value.foldlM (tagsStepClaim db) qs

/-- The per-key restriction actually applied by the code when the key is
present in the tag table (used to state the amended C2). -/
def tagRestrict (db : List Tag) (qs : QuerySet) (key : String) : QuerySet :=
  match db.find? (fun t => t.pk == key) with
  | some tag_obj =>
    match tag_obj.tag_synonym_group with
    | some synonyms =>
      if synonyms.isEmpty then qs
      else qs.applyOp (.filterTagsIn synonyms)
    | none => qs.applyOp (.filterTagsPk key)
  | none => qs

/-- A small concrete model for witnesses: one JSON field `meta` with the
`exact` lookup registered. -/
def wModel : ModelMeta := .mk [("meta", none, ["exact"])]

/-- An unrestricted queryset over `wModel`, for witnesses. -/
def wQs : QuerySet := ⟨wModel, []⟩

/-- A `JSONValueFilter` instance as registered by the filtersets:
`field_name = "meta"` with the default lookup. -/
def wFilter : JSONValueFilter := ⟨"meta", "exact"⟩

/-! ## Helper lemmas -/

theorem applyEntry_frame {f : JSONValueFilter} {valid : List String} {qs : QuerySet}
    {e : JSON} {qs' : QuerySet} (h : applyEntry f valid qs e = .ok qs') :
    qs'.model = qs.model ∧ ∃ ex, qs'.ops = qs.ops ++ ex := by
  unfold applyEntry at h
  repeat' split at h
  all_goals cases h
  · exact ⟨rfl, [], by simp⟩
  · exact ⟨rfl, _, List.append_assoc _ _ _⟩
  · exact ⟨rfl, _, rfl⟩

theorem applyEntries_frame {f : JSONValueFilter} {valid : List String} :
    ∀ {entries : List JSON} {qs qs' : QuerySet},
      applyEntries f valid entries qs = .ok qs' →
      qs'.model = qs.model ∧ ∃ ex, qs'.ops = qs.ops ++ ex := by
  intro entries
  induction entries with
  | nil =>
    intro qs qs' h
    cases h
    exact ⟨rfl, [], by simp⟩
  | cons e rest ih =>
    intro qs qs' h
    unfold applyEntries at h
    cases he : applyEntry f valid qs e with
    | error err => rw [he] at h; exact absurd h (by simp)
    | ok qsm =>
      rw [he] at h
      obtain ⟨hm1, ex1, ho1⟩ := applyEntry_frame he
      obtain ⟨hm2, ex2, ho2⟩ := ih h
      exact ⟨hm2.trans hm1, ex1 ++ ex2, by rw [ho2, ho1, List.append_assoc]⟩

theorem applyEntries_cons (f : JSONValueFilter) (valid : List String) (e : JSON)
    (rest : List JSON) (qs : QuerySet) :
    applyEntries f valid (e :: rest) qs =
      match applyEntry f valid qs e with
      | .error err => .error err
      | .ok qs' => applyEntries f valid rest qs' := rfl

theorem applyEntries_append_ok {f : JSONValueFilter} {valid : List String} :
    ∀ {pre : List JSON} {qs qs' : QuerySet} (rest : List JSON),
      applyEntries f valid pre qs = .ok qs' →
      applyEntries f valid (pre ++ rest) qs = applyEntries f valid rest qs'
  | [], _, _, _, hpre => by cases hpre; rfl
  | e :: p, qs, qs', rest, hpre => by
    show applyEntries f valid (e :: (p ++ rest)) qs = _
    rw [applyEntries_cons] at hpre ⊢
    cases he : applyEntry f valid qs e with
    | error err => rw [he] at hpre; simp at hpre
    | ok qsm => rw [he] at hpre; exact applyEntries_append_ok rest hpre

theorem tagsLoop_cons (db : List Tag) (k : String) (rest : List String) (qs : QuerySet) :
    tagsLoop db (k :: rest) qs =
      match tagsStep db qs k with
      | .error e => .error e
      | .ok qs' => tagsLoop db rest qs' := rfl

theorem tagsStep_frame {db : List Tag} {qs : QuerySet} {k : String} {qs' : QuerySet}
    (h : tagsStep db qs k = .ok qs') :
    qs'.model = qs.model ∧ ∃ ex, qs'.ops = qs.ops ++ ex := by
  unfold tagsStep at h
  repeat' split at h
  all_goals cases h
  · exact ⟨rfl, [], by simp⟩
  · exact ⟨rfl, _, rfl⟩
  · exact ⟨rfl, _, rfl⟩

theorem tagsLoop_frame {db : List Tag} :
    ∀ {keys : List String} {qs qs' : QuerySet},
      tagsLoop db keys qs = .ok qs' →
      qs'.model = qs.model ∧ ∃ ex, qs'.ops = qs.ops ++ ex := by
  intro keys
  induction keys with
  | nil =>
    intro qs qs' h
    cases h
    exact ⟨rfl, [], by simp⟩
  | cons k rest ih =>
    intro qs qs' h
    unfold tagsLoop at h
    cases he : tagsStep db qs k with
    | error err => rw [he] at h; exact absurd h (by simp)
    | ok qsm =>
      rw [he] at h
      obtain ⟨hm1, ex1, ho1⟩ := tagsStep_frame he
      obtain ⟨hm2, ex2, ho2⟩ := ih h
      exact ⟨hm2.trans hm1, ex1 ++ ex2, by rw [ho2, ho1, List.append_assoc]⟩

theorem activeGroup_ok {fa : ActiveGroupFilter} {qs : QuerySet} :
    ∀ {value : Option String} {r : QuerySet},
      ActiveGroupFilter.filter fa qs value = .ok r → r = qs := by
  intro value r h
  cases value with
  | none => cases h; rfl
  | some v =>
    unfold ActiveGroupFilter.filter at h
    repeat' split at h
    all_goals first | (cases h; rfl) | exact absurd h (by simp)

theorem tagsLoop_foldl {db : List Tag} :
    ∀ (keys : List String) (qs : QuerySet),
      (∀ k ∈ keys, (db.find? (fun t => t.pk == k)).isSome) →
      tagsLoop db keys qs = .ok (keys.foldl (tagRestrict db) qs)
  | [], _, _ => rfl
  | k :: rest, qs, hall => by
    have hk := hall k (by simp)
    rw [Option.isSome_iff_exists] at hk
    obtain ⟨tag_obj, hfind⟩ := hk
    have hstep : tagsStep db qs k = .ok (tagRestrict db qs k) := by
      simp only [tagsStep, tagGet, tagRestrict, hfind]
      cases tag_obj.tag_synonym_group with
      | none => rfl
      | some synonyms =>
        by_cases hs : synonyms.isEmpty
        · simp [hs]
        · simp [hs]
    show tagsLoop db (k :: rest) qs = _
    unfold tagsLoop
    rw [hstep]
    show tagsLoop db rest (tagRestrict db qs k)
      = .ok (List.foldl (tagRestrict db) (tagRestrict db qs k) rest)
    exact tagsLoop_foldl rest (tagRestrict db qs k) (fun k' hk' => hall k' (by simp [hk']))

theorem applyEntry_missing_kv {f : JSONValueFilter} {valid : List String} {qs : QuerySet}
    {fields : List (String × JSON)} (hne : fields ≠ [])
    (hmiss : (fields.any (fun p => p.1 == "key") && fields.any (fun p => p.1 == "value")) = false) :
    applyEntry f valid qs (.obj fields) = .error (.validationError keyValueErrMsg) := by
  obtain ⟨p, fs, rfl⟩ : ∃ p fs, fields = p :: fs := by
    cases fields with
    | nil => exact absurd rfl hne
    | cons p fs => exact ⟨p, fs, rfl⟩
  simp only [applyEntry, pyEmptyJSON, pyContains, Bool.false_eq_true, if_false]
  rw [hmiss]
  rfl

theorem applyEntry_bad_lookup {f : JSONValueFilter} {valid : List String} {qs : QuerySet}
    {fields : List (String × JSON)} {le : JSON}
    (hk : fields.any (fun p => p.1 == "key") = true)
    (hv : fields.any (fun p => p.1 == "value") = true)
    (hle : pyGet (.obj fields) "lookup" (.str f.lookup_expr) = .ok le)
    (hhash : pyHashable le = true)
    (hbad : lookupAllowed le valid = false) :
    applyEntry f valid qs (.obj fields)
      = .error (.validationError (lookupErrMsg le f.field_name valid)) := by
  obtain ⟨p, fs, rfl⟩ : ∃ p fs, fields = p :: fs := by
    cases fields with
    | nil => simp at hk
    | cons p fs => exact ⟨p, fs, rfl⟩
  simp only [applyEntry, pyEmptyJSON, pyContains, Bool.false_eq_true, if_false]
  rw [hk, hv]
  simp only [Bool.and_true, Bool.not_true, Bool.false_eq_true, if_false]
  rw [hle]
  simp [hhash, hbad]

theorem filter_malformed {f : JSONValueFilter} {qs : QuerySet} {valid : List String}
    (hvl : f._valid_lookups qs = .ok valid) :
    JSONValueFilter.filter f qs .malformed = .error (.validationError jsonDecodeErrMsg) := by
  simp [JSONValueFilter.filter, hvl]

theorem filter_jsonVal (f : JSONValueFilter) (qs : QuerySet) (v : JSON) :
    JSONValueFilter.filter f qs (.jsonVal v)
      = (match f._valid_lookups qs with
         | Except.error er => (Except.error er : Except PyError QuerySet)
         | Except.ok valid =>
           match toEntryList v with
           | Except.error er => Except.error er
           | Except.ok entries => applyEntries f valid entries qs) := rfl

theorem filter_entry_error {f : JSONValueFilter} {qs qs' : QuerySet} {valid : List String}
    {pre rest : List JSON} {e : JSON} {err : PyError}
    (hvl : f._valid_lookups qs = .ok valid)
    (hpre : applyEntries f valid pre qs = .ok qs')
    (herr : applyEntry f valid qs' e = .error err) :
    JSONValueFilter.filter f qs (.jsonVal (.arr (pre ++ e :: rest))) = .error err := by
  rw [filter_jsonVal, hvl]
  show applyEntries f valid (pre ++ e :: rest) qs = .error err
  rw [applyEntries_append_ok (e :: rest) hpre, applyEntries_cons, herr]

theorem filter_single_obj {f : JSONValueFilter} {qs : QuerySet} {valid : List String}
    {fields : List (String × JSON)} {r : Except PyError QuerySet}
    (hvl : f._valid_lookups qs = .ok valid)
    (hr : applyEntry f valid qs (.obj fields) = r) :
    JSONValueFilter.filter f qs (.jsonVal (.obj fields)) = r := by
  rw [filter_jsonVal, hvl]
  show (match applyEntry f valid qs (.obj fields) with
    | Except.error err => (Except.error err : Except PyError QuerySet)
    | Except.ok qs2 => applyEntries f valid [] qs2) = r
  rw [hr]
  cases r with
  | error e => rfl
  | ok qs2 => rfl

/-! ## Claim theorems -/

/-- C4: for every non-empty input value to `JSONValueFilter.filter` that is
not valid JSON (here: any raw value whose `json.loads` fails), a
`ValidationError` with the decode message is raised, and no filtering step
is applied (the result carries no queryset at all). Stated under the
hypothesis that the configured `field_name` resolves on the queryset's
model, which holds for every filterset registered in the module. -/
theorem C4_decode_error (f : JSONValueFilter) (qs : QuerySet) (valid : List String)
    (hvl : f._valid_lookups qs = .ok valid) :
    JSONValueFilter.filter f qs .malformed = .error (.validationError jsonDecodeErrMsg) :=
  filter_malformed hvl

/-- Witness for C4 at a concrete filter and queryset. -/
theorem C4_decode_error_witness :
    JSONValueFilter.filter ⟨"meta", "exact"⟩ ⟨ModelMeta.mk [("meta", none, ["exact"])], []⟩
      .malformed = .error (.validationError jsonDecodeErrMsg) :=
  C4_decode_error _ _ ["exact"] rfl

/-- C5: every non-empty object entry processed by `JSONValueFilter.filter`
that lacks a `"key"` member or lacks a `"value"` member raises the
key/value `ValidationError` (the entry sits at an arbitrary position after
entries that filtered successfully). -/
theorem C5_missing_key_value (f : JSONValueFilter) (qs qs' : QuerySet) (valid : List String)
    (pre rest : List JSON) (fields : List (String × JSON))
    (hvl : f._valid_lookups qs = .ok valid)
    (hpre : applyEntries f valid pre qs = .ok qs')
    (hne : fields ≠ [])
    (hmiss : (fields.any (fun p => p.1 == "key") && fields.any (fun p => p.1 == "value")) = false) :
    JSONValueFilter.filter f qs (.jsonVal (.arr (pre ++ JSON.obj fields :: rest)))
      = .error (.validationError keyValueErrMsg) :=
  filter_entry_error hvl hpre (applyEntry_missing_kv hne hmiss)

/-- Witness for C5: a `\x7b"value": 1\x7d` entry after a well-formed entry. -/
theorem C5_missing_key_value_witness :
    JSONValueFilter.filter ⟨"meta", "exact"⟩ ⟨ModelMeta.mk [("meta", none, ["exact"])], []⟩
      (.jsonVal (.arr ([JSON.obj [("key", .str "a"), ("value", .num 1)]] ++
        JSON.obj [("value", .num 1)] :: [])))
      = .error (.validationError keyValueErrMsg) :=
  C5_missing_key_value _ _
    (QuerySet.applyOp (QuerySet.mk (ModelMeta.mk [("meta", none, ["exact"])]) [])
      (QsOp.filterJsonPath "meta" (JSON.str "a") "exact" (JSON.num 1)))
    ["exact"] _ _ _ rfl rfl (by simp) rfl

/-- C3 counterexample: an entry whose `"lookup"` value is the JSON array
`[]` — a value that is not among the registered lookups — raises
`TypeError` (Python hashes the value for the `in` test on the lookup dict
and lists are unhashable), not the claimed `ValidationError`. -/
theorem C3_counterexample :
    JSONValueFilter.filter ⟨"meta", "exact"⟩ ⟨ModelMeta.mk [("meta", none, ["exact"])], []⟩
      (.jsonVal (.obj [("key", .str "a"), ("value", .num 1), ("lookup", .arr [])]))
      = .error .typeError
    ∧ isValidationError .typeError = false :=
  ⟨rfl, rfl⟩

/-- C3 as amended: for every entry processed by `JSONValueFilter.filter`
whose `"lookup"` value (or, when absent, the filter's default
`lookup_expr`) is hashable and not among the lookups registered on the
model field reached from `field_name`, a `ValidationError` is raised whose
message names the field and lists the valid expressions, and the queryset
is not filtered by that entry; an unhashable lookup value raises
`TypeError` instead. -/
theorem C3_lookup_error (f : JSONValueFilter) (qs qs' : QuerySet) (valid : List String)
    (pre rest : List JSON) (fields : List (String × JSON)) (le : JSON)
    (hvl : f._valid_lookups qs = .ok valid)
    (hpre : applyEntries f valid pre qs = .ok qs')
    (hk : fields.any (fun p => p.1 == "key") = true)
    (hv : fields.any (fun p => p.1 == "value") = true)
    (hle : pyGet (.obj fields) "lookup" (.str f.lookup_expr) = .ok le)
    (hhash : pyHashable le = true)
    (hbad : lookupAllowed le valid = false) :
    JSONValueFilter.filter f qs (.jsonVal (.arr (pre ++ JSON.obj fields :: rest)))
      = .error (.validationError (lookupErrMsg le f.field_name valid)) :=
  filter_entry_error hvl hpre (applyEntry_bad_lookup hk hv hle hhash hbad)

/-- Witness for the amended C3: a disallowed string lookup `"bogus"`. -/
theorem C3_lookup_error_witness :
    JSONValueFilter.filter ⟨"meta", "exact"⟩ ⟨ModelMeta.mk [("meta", none, ["exact"])], []⟩
      (.jsonVal (.arr ([] ++ JSON.obj
        [("key", .str "a"), ("value", .num 1), ("lookup", .str "bogus")] :: [])))
      = .error (.validationError (lookupErrMsg (.str "bogus") "meta" ["exact"])) :=
  C3_lookup_error _ _ _ ["exact"] [] [] _ _ rfl rfl rfl rfl rfl rfl rfl

/-- C9: a JSON object and the one-element JSON list around it are filtered
identically by `JSONValueFilter.filter` (the `isinstance(value, dict)`
wrap), with the same resulting queryset or the same error. -/
theorem C9_dict_singleton (f : JSONValueFilter) (qs : QuerySet)
    (fields : List (String × JSON)) :
    JSONValueFilter.filter f qs (.jsonVal (.obj fields))
      = JSONValueFilter.filter f qs (.jsonVal (.arr [.obj fields])) := rfl

/-- C10: each of the three filters returns the input queryset unchanged,
with no error, on every empty value: `""`/`None` for the JSON filter,
`None` and `""` for the active-group filter, and the empty key list for
the tags filter. -/
theorem C10_empty_values (f : JSONValueFilter) (fa : ActiveGroupFilter)
    (db : List Tag) (qs : QuerySet) :
    JSONValueFilter.filter f qs .empty = .ok qs
    ∧ ActiveGroupFilter.filter fa qs none = .ok qs
    ∧ ActiveGroupFilter.filter fa qs (some "") = .ok qs
    ∧ TagsFilter.filter db qs [] = .ok qs :=
  ⟨rfl, rfl, by simp [ActiveGroupFilter.filter], rfl⟩

/-- C6: for every non-empty value outside the user's assigned groups,
`ActiveGroupFilter.filter` raises a `ValidationError` naming the rejected
group; every non-error outcome returns the queryset unchanged; and every
error of this filter is of exactly that shape (the error branch is the
filter's only failure). -/
theorem C6_active_group (fa : ActiveGroupFilter) (qs : QuerySet) (v : String)
    (h1 : v ≠ "") (h2 : v ∉ fa.groups) :
    ActiveGroupFilter.filter fa qs (some v)
      = .error (.validationError (activeGroupErrMsg v))
    ∧ (∀ value r, ActiveGroupFilter.filter fa qs value = .ok r → r = qs)
    ∧ (∀ value e, ActiveGroupFilter.filter fa qs value = .error e →
        ∃ w, value = some w ∧ w ≠ "" ∧ w ∉ fa.groups
          ∧ e = .validationError (activeGroupErrMsg w)) := by
  refine ⟨by simp [ActiveGroupFilter.filter, h1, h2], fun value r h => activeGroup_ok h, ?_⟩
  intro value e h
  cases value with
  | none => simp [ActiveGroupFilter.filter] at h
  | some w =>
    by_cases hw : w = ""
    · subst hw
      simp [ActiveGroupFilter.filter] at h
    · by_cases hm : w ∈ fa.groups
      · simp [ActiveGroupFilter.filter, hw, hm] at h
      · refine ⟨w, rfl, hw, hm, ?_⟩
        simp [ActiveGroupFilter.filter, hw, hm] at h
        exact h.symm

/-- Witness for C6 at a concrete user and group. -/
theorem C6_active_group_witness :
    ActiveGroupFilter.filter ⟨["g1"]⟩ wQs (some "g2")
      = .error (.validationError (activeGroupErrMsg "g2")) :=
  (C6_active_group ⟨["g1"]⟩ wQs "g2" (by decide) (by decide)).1

/-- C8: for every non-empty value that is among the user's assigned
groups, `ActiveGroupFilter.filter` returns the input queryset unchanged:
the filter only validates membership and never restricts the result. -/
theorem C8_member_group (fa : ActiveGroupFilter) (qs : QuerySet) (v : String)
    (h1 : v ≠ "") (h2 : v ∈ fa.groups) :
    ActiveGroupFilter.filter fa qs (some v) = .ok qs := by
  simp [ActiveGroupFilter.filter, h1, h2]

/-- Witness for C8 at a concrete member group. -/
theorem C8_member_group_witness :
    ActiveGroupFilter.filter ⟨["g1"]⟩ wQs (some "g1") = .ok wQs :=
  C8_member_group ⟨["g1"]⟩ wQs "g1" (by decide) (by decide)

/-- C2 counterexample: for a tag whose synonym group exists but has an
empty tag set, the code applies no restriction at all (the inner
`if synonyms:` has no else branch), while the claim's "otherwise" case
demands the `tags__pk` restriction; so `TagsFilter.filter` differs from
the claim's described filter at this input. -/
theorem C2_counterexample :
    TagsFilter.filter [⟨"t", some []⟩] wQs ["t"] = .ok wQs
    ∧ tagsFilterClaim [⟨"t", some []⟩] wQs ["t"]
        = .ok (wQs.applyOp (.filterTagsPk "t"))
    ∧ TagsFilter.filter [⟨"t", some []⟩] wQs ["t"]
        ≠ tagsFilterClaim [⟨"t", some []⟩] wQs ["t"] :=
  ⟨rfl, rfl, by
    simp [TagsFilter.filter, tagsFilterClaim, tagsLoop, tagsStep, tagsStepClaim, tagGet,
      QuerySet.applyOp, wQs]⟩

/-- C2 as amended: for every list of keys each present in the tag table,
`TagsFilter.filter` returns the input queryset restricted left-to-right,
conjunctively, once per key — by `tags__in` the synonym group's tags when
the key's tag has a synonym group with a non-empty tag set, by `tags__pk`
when it has no synonym group, and by nothing at all when its synonym
group's tag set is empty; a key matching no tag raises the ORM's
`DoesNotExist` instead. -/
theorem C2_tags_restriction (db : List Tag) (qs : QuerySet) (value : List String)
    (hall : ∀ k ∈ value, (db.find? (fun t => t.pk == k)).isSome) :
    TagsFilter.filter db qs value = .ok (value.foldl (tagRestrict db) qs) := by
  cases value with
  | nil => rfl
  | cons k rest =>
    show tagsLoop db (k :: rest) qs = _
    exact tagsLoop_foldl _ _ hall

/-- Witness for the amended C2: one plain tag, one tag with a non-empty
synonym group, one tag with an empty synonym group. -/
theorem C2_tags_restriction_witness :
    TagsFilter.filter [⟨"a", none⟩, ⟨"s", some ["s", "s2"]⟩, ⟨"e", some []⟩] wQs
      ["a", "s", "e"]
      = .ok ((wQs.applyOp (.filterTagsPk "a")).applyOp (.filterTagsIn ["s", "s2"])) :=
  C2_tags_restriction _ _ _ (by decide)

/-- C7: none of the three filters mutates stored data — in this embedding
every stored entity (tag table, user groups, model metadata) is read-only
input, and on success each filter returns the input queryset itself
(active-group) or the input queryset with restriction operations appended
(its model untouched). -/
theorem C7_frame (f : JSONValueFilter) (fa : ActiveGroupFilter) (db : List Tag)
    (qs q1 q2 q3 : QuerySet) (v1 : RawValue) (v2 : Option String) (v3 : List String)
    (h1 : JSONValueFilter.filter f qs v1 = .ok q1)
    (h2 : ActiveGroupFilter.filter fa qs v2 = .ok q2)
    (h3 : TagsFilter.filter db qs v3 = .ok q3) :
    (q1.model = qs.model ∧ ∃ ex, q1.ops = qs.ops ++ ex)
    ∧ q2 = qs
    ∧ (q3.model = qs.model ∧ ∃ ex, q3.ops = qs.ops ++ ex) := by
  refine ⟨?_, activeGroup_ok h2, ?_⟩
  · cases v1 with
    | empty => cases h1; exact ⟨rfl, [], by simp⟩
    | malformed =>
      unfold JSONValueFilter.filter at h1
      cases hv : f._valid_lookups qs with
      | error e => rw [hv] at h1; simp at h1
      | ok valid => rw [hv] at h1; simp at h1
    | jsonVal v =>
      rw [filter_jsonVal] at h1
      cases hv : f._valid_lookups qs with
      | error e => rw [hv] at h1; simp at h1
      | ok valid =>
        rw [hv] at h1
        cases ht : toEntryList v with
        | error e => rw [ht] at h1; simp at h1
        | ok entries => rw [ht] at h1; exact applyEntries_frame h1
  · by_cases hv3 : v3.isEmpty = true
    · unfold TagsFilter.filter at h3
      rw [if_pos hv3] at h3
      cases h3
      exact ⟨rfl, [], by simp⟩
    · unfold TagsFilter.filter at h3
      rw [if_neg hv3] at h3
      exact tagsLoop_frame h3

/-- Witness for C7: all three filters run on concrete inputs. -/
theorem C7_frame_witness :
    ((wQs.applyOp (.filterJsonPath "meta" (.str "a") "exact" (.num 1))).model = wQs.model
      ∧ ∃ ex, (wQs.applyOp (.filterJsonPath "meta" (.str "a") "exact" (.num 1))).ops
          = wQs.ops ++ ex)
    ∧ wQs = wQs
    ∧ ((wQs.applyOp (.filterTagsPk "t")).model = wQs.model
      ∧ ∃ ex, (wQs.applyOp (.filterTagsPk "t")).ops = wQs.ops ++ ex) :=
  C7_frame wFilter ⟨["g1"]⟩ [⟨"t", none⟩] wQs _ _ _
    (.jsonVal (.obj [("key", .str "a"), ("value", .num 1)])) (some "g1") ["t"]
    rfl rfl rfl

/-- C1 counterexample: `TagsFilter.filter` on a pk matching no tag raises
the ORM's `DoesNotExist` — an error outside the four listed conditions
and not of the framework's validation-error type — so errors are neither
exactly the four conditions nor always `ValidationError`. -/
theorem C1_counterexample :
    TagsFilter.filter [⟨"a", none⟩] wQs ["b"] = .error .doesNotExist
    ∧ isValidationError .doesNotExist = false :=
  ⟨rfl, rfl⟩

/-- C1 as amended: each of the four listed conditions (malformed JSON, an
object entry missing `"key"` or `"value"`, a disallowed hashable lookup
expression, an active group outside the user's assigned groups) raises
the framework's `ValidationError`; but these are not the only errors of
the module — `TagsFilter.filter` raises the ORM's `DoesNotExist`, which
is not a `ValidationError`, for a pk matching no tag. -/
theorem C1_error_conditions
    (f : JSONValueFilter) (qs : QuerySet) (valid : List String)
    (hvl : f._valid_lookups qs = .ok valid)
    (fieldsKV : List (String × JSON)) (hne : fieldsKV ≠ [])
    (hmiss : (fieldsKV.any (fun p => p.1 == "key")
      && fieldsKV.any (fun p => p.1 == "value")) = false)
    (fieldsLk : List (String × JSON)) (le : JSON)
    (hk : fieldsLk.any (fun p => p.1 == "key") = true)
    (hv : fieldsLk.any (fun p => p.1 == "value") = true)
    (hle : pyGet (.obj fieldsLk) "lookup" (.str f.lookup_expr) = .ok le)
    (hhash : pyHashable le = true)
    (hbad : lookupAllowed le valid = false)
    (fa : ActiveGroupFilter) (g : String) (hg1 : g ≠ "")
    (hg2 : g ∉ fa.groups)
    (db : List Tag) (badKey : String)
    (hdb : db.find? (fun t => t.pk == badKey) = none) :
    JSONValueFilter.filter f qs .malformed = .error (.validationError jsonDecodeErrMsg)
    ∧ JSONValueFilter.filter f qs (.jsonVal (.obj fieldsKV))
        = .error (.validationError keyValueErrMsg)
    ∧ JSONValueFilter.filter f qs (.jsonVal (.obj fieldsLk))
        = .error (.validationError (lookupErrMsg le f.field_name valid))
    ∧ ActiveGroupFilter.filter fa qs (some g)
        = .error (.validationError (activeGroupErrMsg g))
    ∧ TagsFilter.filter db qs [badKey] = .error .doesNotExist
    ∧ isValidationError .doesNotExist = false := by
  refine ⟨filter_malformed hvl,
    filter_single_obj hvl (applyEntry_missing_kv hne hmiss),
    filter_single_obj hvl (applyEntry_bad_lookup hk hv hle hhash hbad),
    by simp [ActiveGroupFilter.filter, hg1, hg2], ?_, rfl⟩
  show tagsLoop db [badKey] qs = .error .doesNotExist
  have hstep : tagsStep db qs badKey = .error .doesNotExist := by
    unfold tagsStep tagGet
    rw [hdb]
  rw [tagsLoop_cons, hstep]

/-- Witness for the amended C1: all five error shapes at concrete inputs. -/
theorem C1_error_conditions_witness :
    JSONValueFilter.filter wFilter wQs .malformed
      = .error (.validationError jsonDecodeErrMsg)
    ∧ JSONValueFilter.filter wFilter wQs (.jsonVal (.obj [("value", JSON.num 1)]))
        = .error (.validationError keyValueErrMsg)
    ∧ JSONValueFilter.filter wFilter wQs
        (.jsonVal (.obj [("key", JSON.str "a"), ("value", JSON.num 1),
          ("lookup", JSON.str "bogus")]))
        = .error (.validationError (lookupErrMsg (JSON.str "bogus") "meta" ["exact"]))
    ∧ ActiveGroupFilter.filter ⟨["g1"]⟩ wQs (some "g2")
        = .error (.validationError (activeGroupErrMsg "g2"))
    ∧ TagsFilter.filter [⟨"c", none⟩] wQs ["b"] = .error .doesNotExist
    ∧ isValidationError .doesNotExist = false :=
  C1_error_conditions wFilter wQs ["exact"] rfl
    [("value", JSON.num 1)] (by simp) rfl
    [("key", JSON.str "a"), ("value", JSON.num 1), ("lookup", JSON.str "bogus")]
    (JSON.str "bogus") rfl rfl rfl rfl rfl
    ⟨["g1"]⟩ "g2" (by decide) (by decide)
    [⟨"c", none⟩] "b" rfl

end Alexandria
